import Mathlib

/-!
Verification of the authentication/authorization flow of a minimal
blogging service (`src/main.py`): a relational store of Users and Posts,
bcrypt-style password hashing, cookie-borne signed session tokens, and the
signup / login / create / update / delete handlers.

The store is embedded as explicit lists; each handler is a pure function
from its inputs and the store to a result paired with the resulting store
(an `HTTPException` aborts the request before any commit, so the store
component is unchanged on the error path).  Library calls that live
outside the repository (passlib's bcrypt, python-jose's JWT) are modelled
from the spec, with salts and the current time passed explicitly.
-/

namespace Board

/-! ### Credential service

`src/main.py` delegates password hashing to passlib's bcrypt
(`pwd_context = CryptContext(schemes=["bcrypt"])`) and token
signing/parsing to python-jose.  Neither library's code is part of the
repository, so both are modelled from the spec (§4.1): hashing is salted
and one-way, with the salt drawn by the library's RNG made an explicit
argument; tokens are signed stateless payloads whose decoding succeeds
exactly when the signature (secret, algorithm) checks out and any `exp`
claim has not elapsed. -/

def SECRET_KEY : String := "education_demo_secret_key"

def ALGORITHM : String := "HS256"

/-- Modelled from the spec: the keyed digest inside passlib's bcrypt hash
(library code, not in the source tree) — an abstract digest of the salt
and the password. -/
def bcrypt_digest (salt : Nat) (password : String) : Nat :=
  password.data.foldl (fun a c => a * 131 + c.toNat + salt) (salt + 7)

/-- Modelled from the spec: `pwd_context.hash` — one-way, salted hashing;
the output records the salt followed by the digest, as a bcrypt hash
string does. -/
def pwd_hash (password : String) (salt : Nat) : String :=
  toString salt ++ "$" ++ toString (bcrypt_digest salt password)

/-- Modelled from the spec: `pwd_context.verify` — parse the salt out of
the stored hash, recompute the digest of the candidate password under
that salt, and compare. -/
def pwd_verify (password h : String) : Bool :=
  let saltPart : List Char := h.data.takeWhile (fun c => c != '$')
  match h.data.dropWhile (fun c => c != '$') with
  | '$' :: rest =>
    match (String.mk saltPart).toNat? with
    | some salt => String.mk rest == toString (bcrypt_digest salt password)
    | none => false
  | _ => false

/-- Modelled from the spec: the wire form of a python-jose JWT — either a
string that does not parse as a token at all, or a payload of string
claims together with the secret and algorithm that signed it.  A token is
"correctly signed" exactly when its recorded secret and algorithm are the
server's. -/
inductive TokenBytes where
  | malformed (raw : String)
  | signed (payload : List (String × String)) (secret : String) (alg : String)
deriving DecidableEq

def TokenBytes.correctlySigned : TokenBytes → Bool
  | .malformed _ => false
  | .signed _ s a => s == SECRET_KEY && a == ALGORITHM

/-- `create_access_token` (`src/main.py` lines 89–92): copy the claim
dict and sign it with the module's secret and algorithm.  No expiry claim
is added. -/
def create_access_token (data : List (String × String)) : TokenBytes :=
  .signed data SECRET_KEY ALGORITHM

/-- Modelled from the spec: `jwt.decode` — raises `JWTError` (here:
`none`) on a malformed token, a signature made with a different secret or
algorithm, or an elapsed / unreadable `exp` claim; otherwise returns the
payload. -/
def jwt_decode (t : TokenBytes) (secret alg : String) (now : Nat) :
    Option (List (String × String)) :=
  match t with
  | .malformed _ => none
  | .signed pl s a =>
    if s = secret ∧ a = alg then
      match pl.lookup "exp" with
      | none => some pl
      | some e =>
        match e.toNat? with
        | some exp => if exp < now then none else some pl
        | none => none
    else none

/-- The token issued at login (`src/main.py` line 161):
`create_access_token({"sub": str(db_user.id)})`. -/
def issueToken (uid : Nat) : TokenBytes :=
  create_access_token [("sub", toString uid)]

/-! ### Data model (`src/main.py` §2–3)

The ORM rows become structures, the two tables become lists, and the
store keeps the next autoincrement primary key for each table. -/

structure User where
  id : Nat
  email : String
  hashed_password : String
deriving DecidableEq

structure Post where
  id : Nat
  title : String
  content : String
  owner_id : Nat
deriving DecidableEq

structure Store where
  users : List User
  posts : List Post
  next_user_id : Nat
  next_post_id : Nat
deriving DecidableEq

structure UserCreate where
  email : String
  password : String
deriving DecidableEq

structure PostCreate where
  title : String
  content : String
deriving DecidableEq

/-- An `HTTPException(status_code, detail)`. -/
structure HTTPError where
  status : Nat
  detail : String
deriving DecidableEq

/-- `db.query(User).filter(User.email == email).first()`. -/
def Store.findUserByEmail (db : Store) (email : String) : Option User :=
  db.users.find? (fun u => u.email == email)

/-- `db.query(User).filter(User.id == uid).first()` for an integer id. -/
def Store.findUserById (db : Store) (uid : Nat) : Option User :=
  db.users.find? (fun u => u.id == uid)

/-- `db.query(User).filter(User.id == user_id).first()` where `user_id`
is the TEXT subject claim: SQLite integer affinity converts a numeric
string to the integer it denotes before comparing with the INTEGER
primary key, and a non-numeric string matches no row. -/
def Store.findUserBySub (db : Store) (sub : String) : Option User :=
  match sub.toNat? with
  | some uid => db.findUserById uid
  | none => none

/-- `db.query(Post).filter(Post.id == post_id).first()`. -/
def Store.findPostById (db : Store) (pid : Nat) : Option Post :=
  db.posts.find? (fun p => p.id == pid)

/-! ### Session resolvers (`src/main.py` lines 95–123)

Each handler gets its own scoped session over the same store, so the
resolvers take the store directly; the cookie is `none` when absent and
the current time is explicit (it only matters for an `exp` claim). -/

/-- `get_current_user` (`src/main.py` lines 95–113): 401 if the cookie is
absent, the token fails to decode, the payload has no `sub`, or no user
row matches the subject; otherwise the matching user. -/
def get_current_user (access_token : Option TokenBytes) (db : Store) (now : Nat) :
    Except HTTPError User :=
  match access_token with
  | none => .error ⟨401, "로그인이 필요합니다."⟩
  | some tok =>
    match jwt_decode tok SECRET_KEY ALGORITHM now with
    | none => .error ⟨401, "토큰 만료/오류"⟩
    | some payload =>
      match payload.lookup "sub" with
      | none => .error ⟨401, "유효하지 않은 토큰"⟩
      | some sub =>
        match db.findUserBySub sub with
        | none => .error ⟨401, "유저를 찾을 수 없음"⟩
        | some user => .ok user

/-- `get_current_user_optional` (`src/main.py` lines 116–123): the same
resolution, but every failure (bare `except:` included) becomes `None`;
a payload without `sub` queries `User.id == None`, which matches no row. -/
def get_current_user_optional (access_token : Option TokenBytes) (db : Store)
    (now : Nat) : Option User :=
  match access_token with
  | none => none
  | some tok =>
    match jwt_decode tok SECRET_KEY ALGORITHM now with
    | none => none
    | some payload =>
      match payload.lookup "sub" with
      | none => none
      | some sub => db.findUserBySub sub

/-! ### Request handlers (`src/main.py` §5)

Each handler returns its response (or the `HTTPException` it raises)
paired with the store after the request; raising aborts the request
before any commit, so the store is returned unchanged on every error
path. -/

/-- `signup` (`src/main.py` lines 144–153).  The bcrypt salt drawn inside
`pwd_context.hash` is an explicit argument. -/
def signup (user : UserCreate) (salt : Nat) (db : Store) :
    Except HTTPError String × Store :=
  match db.findUserByEmail user.email with
  | some _ => (.error ⟨400, "이미 가입된 이메일"⟩, db)
  | none =>
    let hashed_pw := pwd_hash user.password salt
    let new_user : User := ⟨db.next_user_id, user.email, hashed_pw⟩
    (.ok "가입 완료",
     { db with users := db.users ++ [new_user], next_user_id := db.next_user_id + 1 })

/-- `login` (`src/main.py` lines 155–164): on success the returned token
is what `response.set_cookie` stores under `access_token`. -/
def login (user : UserCreate) (db : Store) : Except HTTPError TokenBytes × Store :=
  match db.findUserByEmail user.email with
  | none => (.error ⟨401, "로그인 실패"⟩, db)
  | some db_user =>
    if pwd_verify user.password db_user.hashed_password then
      (.ok (issueToken db_user.id), db)
    else
      (.error ⟨401, "로그인 실패"⟩, db)

/-- `create_post` (`src/main.py` lines 172–181), after
`Depends(get_current_user)` has produced `current_user`. -/
def create_post (post : PostCreate) (db : Store) (current_user : User) :
    Except HTTPError Post × Store :=
  let new_post : Post := ⟨db.next_post_id, post.title, post.content, current_user.id⟩
  (.ok new_post,
   { db with posts := db.posts ++ [new_post], next_post_id := db.next_post_id + 1 })

/-- The `POST /posts` route: strict session resolution, then the handler
body. -/
def create_post_route (cookie : Option TokenBytes) (post : PostCreate)
    (db : Store) (now : Nat) : Except HTTPError Post × Store :=
  match get_current_user cookie db now with
  | .error e => (.error e, db)
  | .ok u => create_post post db u

/-- The field mutation `existing_post.title = ...; existing_post.content
= ...` committed as an UPDATE of the row(s) whose primary key is
`post_id`. -/
def updateFields (post_id : Nat) (post : PostCreate) (q : Post) : Post :=
  if q.id = post_id then { q with title := post.title, content := post.content } else q

/-- `update_post` (`src/main.py` lines 183–197): 404 if no such post,
403 if the acting user is not the owner, else mutate title and content. -/
def update_post (post_id : Nat) (post : PostCreate) (db : Store)
    (current_user : User) : Except HTTPError Post × Store :=
  match db.findPostById post_id with
  | none => (.error ⟨404, "글 없음"⟩, db)
  | some existing_post =>
    if existing_post.owner_id ≠ current_user.id then
      (.error ⟨403, "권한 없음"⟩, db)
    else
      (.ok { existing_post with title := post.title, content := post.content },
       { db with posts := db.posts.map (updateFields post_id post) })

/-- `delete_post` (`src/main.py` lines 199–212): 404 if no such post,
403 if the acting user is not the owner, else delete the row. -/
def delete_post (post_id : Nat) (db : Store) (current_user : User) :
    Except HTTPError String × Store :=
  match db.findPostById post_id with
  | none => (.error ⟨404, "글 없음"⟩, db)
  | some post =>
    if post.owner_id ≠ current_user.id then
      (.error ⟨403, "권한 없음"⟩, db)
    else
      (.ok "삭제 완료", { db with posts := db.posts.filter (fun p => p.id != post_id) })

/-- `read_root` (`src/main.py` lines 131–136): resolve the optional user
and render every post. -/
def read_root (cookie : Option TokenBytes) (db : Store) (now : Nat) :
    Option User × List Post :=
  (get_current_user_optional cookie db now, db.posts)

/-! ### Concrete fixtures for the closed instances -/

def alice : User := ⟨1, "a@x.com", pwd_hash "pw" 0⟩

def bob : User := ⟨2, "b@x.com", pwd_hash "pw2" 5⟩

def post1 : Post := ⟨1, "t1", "c1", 1⟩

def sampleDb : Store := ⟨[alice, bob], [post1], 3, 2⟩

def sampleBody : PostCreate := ⟨"t2", "c2"⟩

def emptyStore : Store := ⟨[], [], 1, 1⟩

/-! ### Decimal representation round-trip

The handlers store the token subject as `str(user.id)` and the SQLite
integer-affinity comparison `User.id == user_id` converts the numeric
text back to the integer it denotes.  We prove the round-trip
`String.toNat? (toString n) = some n` from the core definitions. -/

theorem toDigitsCore_append (b : Nat) :
    ∀ (fuel n : Nat) (ds : List Char),
      Nat.toDigitsCore b fuel n ds = Nat.toDigitsCore b fuel n [] ++ ds
  | 0, _, _ => rfl
  | fuel+1, n, ds => by
    simp only [Nat.toDigitsCore]
    by_cases h : n / b = 0
    · simp [h]
    · simp only [h, if_false]
      rw [toDigitsCore_append b fuel (n / b) (Nat.digitChar (n % b) :: ds),
          toDigitsCore_append b fuel (n / b) [Nat.digitChar (n % b)]]
      simp

theorem toDigitsCore_fuel (b : Nat) (hb : 2 ≤ b) :
    ∀ (n f₁ f₂ : Nat), n < f₁ → n < f₂ → ∀ ds,
      Nat.toDigitsCore b f₁ n ds = Nat.toDigitsCore b f₂ n ds := by
  intro n
  induction n using Nat.strong_induction_on with
  | _ n ih =>
    intro f₁ f₂ h₁ h₂ ds
    match f₁, f₂, h₁, h₂ with
    | f₁+1, f₂+1, h₁, h₂ =>
      simp only [Nat.toDigitsCore]
      by_cases h : n / b = 0
      · simp [h]
      · simp only [h, if_false]
        have hn : 0 < n := by
          rcases Nat.eq_zero_or_pos n with h0 | h0
          · subst h0; simp [Nat.zero_div] at h
          · exact h0
        have hdiv : n / b < n := Nat.div_lt_self hn (by omega)
        exact ih (n / b) hdiv f₁ f₂ (by omega) (by omega) _

theorem toDigits_of_lt (b n : Nat) (h : n < b) :
    Nat.toDigits b n = [Nat.digitChar n] := by
  have h0 : n / b = 0 := Nat.div_eq_of_lt h
  simp [Nat.toDigits, Nat.toDigitsCore, h0, Nat.mod_eq_of_lt h]

theorem toDigits_of_ge (b n : Nat) (hb : 2 ≤ b) (h : b ≤ n) :
    Nat.toDigits b n = Nat.toDigits b (n / b) ++ [Nat.digitChar (n % b)] := by
  have hbpos : 0 < b := by omega
  have h0 : n / b ≠ 0 := by
    have : 1 ≤ n / b := (Nat.one_le_div_iff hbpos).mpr h
    omega
  show Nat.toDigitsCore b (n+1) n []
      = Nat.toDigitsCore b (n/b+1) (n/b) [] ++ [Nat.digitChar (n % b)]
  rw [show Nat.toDigitsCore b (n+1) n []
        = Nat.toDigitsCore b n (n/b) [Nat.digitChar (n % b)] from by
      simp [Nat.toDigitsCore, h0]]
  rw [toDigitsCore_append]
  congr 1
  exact toDigitsCore_fuel b hb (n/b) n (n/b+1)
    (Nat.div_lt_self (by omega) (by omega)) (by omega) []

theorem digitChar_isDigit {m : Nat} (h : m < 10) :
    (Nat.digitChar m).isDigit = true := by
  interval_cases m <;> decide

theorem digitChar_val {m : Nat} (h : m < 10) :
    (Nat.digitChar m).toNat - Char.toNat '0' = m := by
  interval_cases m <;> decide

theorem toDigits_ne_nil (n : Nat) : Nat.toDigits 10 n ≠ [] := by
  rcases Nat.lt_or_ge n 10 with h | h
  · rw [toDigits_of_lt 10 n h]; simp
  · rw [toDigits_of_ge 10 n (by omega) h]; simp

theorem toDigits_all_digit (n : Nat) :
    ∀ c ∈ Nat.toDigits 10 n, c.isDigit = true := by
  induction n using Nat.strong_induction_on with
  | _ n ih =>
    rcases Nat.lt_or_ge n 10 with h | h
    · rw [toDigits_of_lt 10 n h]
      intro c hc
      simp only [List.mem_singleton] at hc
      subst hc
      exact digitChar_isDigit h
    · rw [toDigits_of_ge 10 n (by omega) h]
      intro c hc
      rcases List.mem_append.mp hc with hc | hc
      · exact ih (n / 10) (Nat.div_lt_self (by omega) (by omega)) c hc
      · simp only [List.mem_singleton] at hc
        subst hc
        exact digitChar_isDigit (Nat.mod_lt _ (by omega))

theorem foldl_toDigits (n : Nat) :
    (Nat.toDigits 10 n).foldl (fun a c => a * 10 + (c.toNat - Char.toNat '0')) 0 = n := by
  induction n using Nat.strong_induction_on with
  | _ n ih =>
    rcases Nat.lt_or_ge n 10 with h | h
    · rw [toDigits_of_lt 10 n h]
      simp only [List.foldl]
      have := digitChar_val h
      omega
    · rw [toDigits_of_ge 10 n (by omega) h, List.foldl_append]
      rw [ih (n / 10) (Nat.div_lt_self (by omega) (by omega))]
      have : (Nat.digitChar (n % 10)).toNat - Char.toNat '0' = n % 10 :=
        digitChar_val (Nat.mod_lt _ (by omega))
      simp only [List.foldl, this]
      omega

theorem data_repr (n : Nat) : (Nat.repr n).data = Nat.toDigits 10 n := rfl

theorem toNat?_repr (n : Nat) : (Nat.repr n).toNat? = some n := by
  have hnat : (Nat.repr n).isNat = true := by
    unfold String.isNat
    rw [Bool.and_eq_true]
    constructor
    · have hne : ¬ (Nat.repr n).isEmpty = true := by
        intro hE
        have h1 := (String.isEmpty_iff _).mp hE
        have h2 : (Nat.repr n).data = [] := by rw [h1]
        rw [data_repr] at h2
        exact toDigits_ne_nil n h2
      simp [hne]
    · rw [String.all_iff]
      intro c hc
      exact toDigits_all_digit n c (by rwa [data_repr] at hc)
  unfold String.toNat?
  rw [if_pos hnat, String.foldl_eq, data_repr, foldl_toDigits]

theorem toNat?_toString (n : Nat) : (toString n).toNat? = some n :=
  toNat?_repr n

theorem toString_nat_inj {m n : Nat} (h : toString m = toString n) : m = n := by
  have hm := toNat?_toString m
  rw [h, toNat?_toString n] at hm
  exact (Option.some.inj hm).symm

theorem takeWhile_all_append {α} (p : α → Bool) :
    ∀ (l₁ : List α) (c : α) (l₂ : List α), (∀ x ∈ l₁, p x = true) → p c = false →
      (l₁ ++ c :: l₂).takeWhile p = l₁ ∧ (l₁ ++ c :: l₂).dropWhile p = c :: l₂
  | [], c, l₂, _, hc => by
    simp [List.takeWhile_cons, List.dropWhile_cons, hc]
  | a :: l, c, l₂, h, hc => by
    have ha : p a = true := h a (by simp)
    have ih := takeWhile_all_append p l c l₂ (fun x hx => h x (by simp [hx])) hc
    simp [List.takeWhile_cons, List.dropWhile_cons, ha, ih.1, ih.2]

theorem mk_data (s : String) : String.mk s.data = s := rfl

/-! ### Password hashing lemmas -/

theorem ne_dollar_of_isDigit {c : Char} (h : c.isDigit = true) :
    (c != '$') = true := by
  rcases eq_or_ne c '$' with rfl | hne
  · exact absurd h (by decide)
  · simp [hne]

theorem data_pwd_hash (p : String) (s : Nat) :
    (pwd_hash p s).data
      = (toString s).data ++ '$' :: (toString (bcrypt_digest s p)).data := by
  show (toString s ++ "$" ++ toString (bcrypt_digest s p)).data = _
  rw [String.data_append, String.data_append,
      show ("$" : String).data = ['$'] by decide, List.append_assoc]
  rfl

theorem toString_nat_no_dollar (n : Nat) :
    ∀ c ∈ (toString n).data, (c != '$') = true := fun c hc =>
  ne_dollar_of_isDigit (toDigits_all_digit n c hc)

theorem pwd_verify_hash (p : String) (s : Nat) :
    pwd_verify p (pwd_hash p s) = true := by
  have htd := takeWhile_all_append (fun c => c != '$') (toString s).data '$'
      (toString (bcrypt_digest s p)).data (toString_nat_no_dollar s) (by decide)
  unfold pwd_verify
  rw [data_pwd_hash, htd.1, htd.2]
  simp only [mk_data, toNat?_toString]
  simp

theorem pwd_hash_salt_inj (p : String) {s₁ s₂ : Nat} (h : s₁ ≠ s₂) :
    pwd_hash p s₁ ≠ pwd_hash p s₂ := by
  intro he
  apply h
  have hd : (pwd_hash p s₁).data = (pwd_hash p s₂).data := by rw [he]
  rw [data_pwd_hash, data_pwd_hash] at hd
  have h₁ := takeWhile_all_append (fun c => c != '$') (toString s₁).data '$'
      (toString (bcrypt_digest s₁ p)).data (toString_nat_no_dollar s₁) (by decide)
  have h₂ := takeWhile_all_append (fun c => c != '$') (toString s₂).data '$'
      (toString (bcrypt_digest s₂ p)).data (toString_nat_no_dollar s₂) (by decide)
  have hdata : (toString s₁).data = (toString s₂).data := by
    rw [← h₁.1, ← h₂.1, hd]
  exact toString_nat_inj (String.ext hdata)

/-! ### Session resolver case equations -/

theorem findUserBySub_toString (db : Store) (uid : Nat) :
    db.findUserBySub (toString uid) = db.findUserById uid := by
  unfold Store.findUserBySub
  rw [toNat?_toString]

theorem get_current_user_absent (db : Store) (now : Nat) :
    get_current_user none db now = .error ⟨401, "로그인이 필요합니다."⟩ := rfl

theorem get_current_user_decode_fail {tok : TokenBytes} {db : Store} {now : Nat}
    (h : jwt_decode tok SECRET_KEY ALGORITHM now = none) :
    get_current_user (some tok) db now = .error ⟨401, "토큰 만료/오류"⟩ := by
  simp only [get_current_user, h]

theorem get_current_user_no_sub {tok : TokenBytes} {db : Store} {now : Nat}
    {pl : List (String × String)}
    (h : jwt_decode tok SECRET_KEY ALGORITHM now = some pl)
    (h2 : pl.lookup "sub" = none) :
    get_current_user (some tok) db now = .error ⟨401, "유효하지 않은 토큰"⟩ := by
  simp only [get_current_user, h, h2]

theorem get_current_user_no_user {tok : TokenBytes} {db : Store} {now : Nat}
    {pl : List (String × String)} {s : String}
    (h : jwt_decode tok SECRET_KEY ALGORITHM now = some pl)
    (h2 : pl.lookup "sub" = some s) (h3 : db.findUserBySub s = none) :
    get_current_user (some tok) db now = .error ⟨401, "유저를 찾을 수 없음"⟩ := by
  simp only [get_current_user, h, h2, h3]

theorem get_current_user_resolved {tok : TokenBytes} {db : Store} {now : Nat}
    {pl : List (String × String)} {s : String} {u : User}
    (h : jwt_decode tok SECRET_KEY ALGORITHM now = some pl)
    (h2 : pl.lookup "sub" = some s) (h3 : db.findUserBySub s = some u) :
    get_current_user (some tok) db now = .ok u := by
  simp only [get_current_user, h, h2, h3]

theorem optional_eq_toOption (c : Option TokenBytes) (db : Store) (now : Nat) :
    get_current_user_optional c db now = (get_current_user c db now).toOption := by
  match c with
  | none => rfl
  | some tok =>
    cases hdec : jwt_decode tok SECRET_KEY ALGORITHM now with
    | none =>
      simp only [get_current_user_optional, get_current_user, hdec, Except.toOption]
    | some pl =>
      cases hsub : pl.lookup "sub" with
      | none =>
        simp only [get_current_user_optional, get_current_user, hdec, hsub,
          Except.toOption]
      | some s =>
        cases hfind : db.findUserBySub s with
        | none =>
          simp only [get_current_user_optional, get_current_user, hdec, hsub, hfind,
            Except.toOption]
        | some u =>
          simp only [get_current_user_optional, get_current_user, hdec, hsub, hfind,
            Except.toOption]

theorem user_mem_of_strict_ok {c : Option TokenBytes} {db : Store} {now : Nat}
    {U : User} (h : get_current_user c db now = .ok U) : U ∈ db.users := by
  match c with
  | none => exact absurd h (by simp [get_current_user])
  | some tok =>
    cases hdec : jwt_decode tok SECRET_KEY ALGORITHM now with
    | none =>
      simp only [get_current_user, hdec] at h
      exact Except.noConfusion h
    | some pl =>
      cases hsub : pl.lookup "sub" with
      | none =>
        simp only [get_current_user, hdec, hsub] at h
        exact Except.noConfusion h
      | some s =>
        cases hfind : db.findUserBySub s with
        | none =>
          simp only [get_current_user, hdec, hsub, hfind] at h
          exact Except.noConfusion h
        | some u =>
          simp only [get_current_user, hdec, hsub, hfind, Except.ok.injEq] at h
          subst h
          unfold Store.findUserBySub at hfind
          cases hnat : s.toNat? with
          | none => rw [hnat] at hfind; cases hfind
          | some uid =>
            rw [hnat] at hfind
            exact List.mem_of_find?_eq_some hfind

/-! ### The claimed properties -/

/-- C1: for every store and acting authenticated user, updating or
deleting a post fails with 404 when no post with the given id exists
(regardless of ownership — the not-found check comes first), and fails
with 403 when the post exists but its `owner_id` differs from the user's
id; in both cases the store, and so the post, is returned unchanged. -/
theorem nonOwner_update_delete_rejected (db : Store) (U : User) (pid : Nat)
    (body : PostCreate) :
    (db.findPostById pid = none →
      update_post pid body db U = (.error ⟨404, "글 없음"⟩, db) ∧
      delete_post pid db U = (.error ⟨404, "글 없음"⟩, db)) ∧
    (∀ p, db.findPostById pid = some p → p.owner_id ≠ U.id →
      update_post pid body db U = (.error ⟨403, "권한 없음"⟩, db) ∧
      delete_post pid db U = (.error ⟨403, "권한 없음"⟩, db)) := by
  constructor
  · intro h
    constructor
    · simp only [update_post, h]
    · simp only [delete_post, h]
  · intro p hp hown
    constructor
    · simp only [update_post, hp]
      rw [if_pos hown]
    · simp only [delete_post, hp]
      rw [if_pos hown]

theorem nonOwner_update_delete_rejected_witness :
    update_post 1 sampleBody sampleDb bob = (.error ⟨403, "권한 없음"⟩, sampleDb) ∧
    delete_post 9 sampleDb bob = (.error ⟨404, "글 없음"⟩, sampleDb) :=
  ⟨((nonOwner_update_delete_rejected sampleDb bob 1 sampleBody).2 post1 (by decide)
      (by decide)).1,
   ((nonOwner_update_delete_rejected sampleDb bob 9 sampleBody).1 (by decide)).2⟩

/-- C2: the strict session resolver fails — always with status 401 — if
and only if the cookie is absent, the token does not decode (malformed,
wrong secret or algorithm, or no readable subject claim), or the decoded
subject resolves to no user row; otherwise it returns that user's
record. -/
theorem strict_resolver_unauthorized_iff (c : Option TokenBytes) (db : Store)
    (now : Nat) :
    ((∃ e, get_current_user c db now = .error e ∧ e.status = 401) ↔
      (c = none ∨ ∃ t, c = some t ∧
        (jwt_decode t SECRET_KEY ALGORITHM now = none ∨
         ∃ pl, jwt_decode t SECRET_KEY ALGORITHM now = some pl ∧
           (pl.lookup "sub" = none ∨
            ∃ s, pl.lookup "sub" = some s ∧ db.findUserBySub s = none)))) ∧
    (∀ t pl s u, c = some t → jwt_decode t SECRET_KEY ALGORITHM now = some pl →
      pl.lookup "sub" = some s → db.findUserBySub s = some u →
      get_current_user c db now = .ok u) := by
  constructor
  · constructor
    · intro he
      match c with
      | none => exact Or.inl rfl
      | some tok =>
        refine Or.inr ⟨tok, rfl, ?_⟩
        cases hdec : jwt_decode tok SECRET_KEY ALGORITHM now with
        | none => exact Or.inl rfl
        | some pl =>
          refine Or.inr ⟨pl, rfl, ?_⟩
          cases hsub : pl.lookup "sub" with
          | none => exact Or.inl rfl
          | some s =>
            refine Or.inr ⟨s, rfl, ?_⟩
            cases hfind : db.findUserBySub s with
            | none => rfl
            | some u =>
              obtain ⟨e, he1, _⟩ := he
              rw [get_current_user_resolved hdec hsub hfind] at he1
              exact Except.noConfusion he1
    · intro h
      rcases h with rfl | ⟨t, rfl, h⟩
      · exact ⟨_, get_current_user_absent db now, rfl⟩
      · rcases h with hdec | ⟨pl, hdec, h⟩
        · exact ⟨_, get_current_user_decode_fail hdec, rfl⟩
        · rcases h with hsub | ⟨s, hsub, hfind⟩
          · exact ⟨_, get_current_user_no_sub hdec hsub, rfl⟩
          · exact ⟨_, get_current_user_no_user hdec hsub hfind, rfl⟩
  · intro t pl s u hc hdec hsub hfind
    subst hc
    exact get_current_user_resolved hdec hsub hfind

theorem strict_resolver_unauthorized_iff_witness :
    get_current_user (some (issueToken 2)) sampleDb 0 = .ok bob ∧
    (∃ e, get_current_user (some (TokenBytes.malformed "x")) sampleDb 0 = .error e ∧
      e.status = 401) :=
  ⟨(strict_resolver_unauthorized_iff (some (issueToken 2)) sampleDb 0).2
      (issueToken 2) [("sub", toString 2)] (toString 2) bob rfl rfl rfl
      (by rw [findUserBySub_toString]; decide),
   ((strict_resolver_unauthorized_iff (some (TokenBytes.malformed "x")) sampleDb 0).1).mpr
      (Or.inr ⟨TokenBytes.malformed "x", rfl, Or.inl rfl⟩)⟩

/-- C3: a token issued for a user decodes (under the server secret and
algorithm) to a payload whose subject is that user's id, so the strict
resolver applied to it resolves to the user whenever the user's row is in
the store; and a token that is not correctly signed with the server
secret and algorithm always fails decoding. -/
theorem issued_token_roundtrip (U : User) (db : Store) (now : Nat)
    (t : TokenBytes) :
    jwt_decode (issueToken U.id) SECRET_KEY ALGORITHM now
        = some [("sub", toString U.id)] ∧
    ([("sub", toString U.id)] : List (String × String)).lookup "sub"
        = some (toString U.id) ∧
    (db.findUserById U.id = some U →
      get_current_user (some (issueToken U.id)) db now = .ok U) ∧
    (t.correctlySigned = false → jwt_decode t SECRET_KEY ALGORITHM now = none) := by
  refine ⟨rfl, rfl, ?_, ?_⟩
  · intro h
    exact get_current_user_resolved rfl rfl (by rw [findUserBySub_toString]; exact h)
  · intro h
    match t with
    | .malformed _ => rfl
    | .signed pl s a =>
      have hne : ¬ (s = SECRET_KEY ∧ a = ALGORITHM) := by
        rintro ⟨rfl, rfl⟩
        simp [TokenBytes.correctlySigned] at h
      simp only [jwt_decode]
      rw [if_neg hne]

theorem issued_token_roundtrip_witness :
    get_current_user (some (issueToken bob.id)) sampleDb 0 = .ok bob ∧
    jwt_decode (.signed [] "wrong" "HS256") SECRET_KEY ALGORITHM 0 = none :=
  ⟨(issued_token_roundtrip bob sampleDb 0 (.signed [] "wrong" "HS256")).2.2.1
      (by decide),
   (issued_token_roundtrip bob sampleDb 0 (.signed [] "wrong" "HS256")).2.2.2
      (by decide)⟩

/-- C4: signing up with an email already present in the store fails with
400 and returns the store — both the Users and the Posts tables —
exactly as it was. -/
theorem signup_duplicate_rejected (db : Store) (u : UserCreate) (salt : Nat)
    (w : User) (h : db.findUserByEmail u.email = some w) :
    signup u salt db = (.error ⟨400, "이미 가입된 이메일"⟩, db) := by
  simp only [signup, h]

theorem signup_duplicate_rejected_witness :
    signup ⟨"a@x.com", "other"⟩ 9 sampleDb
      = (.error ⟨400, "이미 가입된 이메일"⟩, sampleDb) :=
  signup_duplicate_rejected sampleDb ⟨"a@x.com", "other"⟩ 9 alice (by decide)

/-- C5: when the strict resolver authenticates a user, the create-post
route inserts exactly one new post, whose `owner_id` is that user's id;
the authenticated user is a row of the Users table, so the
every-post-has-an-owner-in-the-store invariant is preserved. -/
theorem create_post_owner_exists (c : Option TokenBytes) (body : PostCreate)
    (db : Store) (now : Nat) (U : User)
    (hauth : get_current_user c db now = .ok U) :
    U ∈ db.users ∧
    create_post_route c body db now =
      (.ok ⟨db.next_post_id, body.title, body.content, U.id⟩,
       { db with
           posts := db.posts ++ [⟨db.next_post_id, body.title, body.content, U.id⟩],
           next_post_id := db.next_post_id + 1 }) ∧
    ((∀ q ∈ db.posts, ∃ v ∈ db.users, v.id = q.owner_id) →
      ∀ q ∈ db.posts ++ [⟨db.next_post_id, body.title, body.content, U.id⟩],
        ∃ v ∈ db.users, v.id = q.owner_id) := by
  have hmem := user_mem_of_strict_ok hauth
  refine ⟨hmem, ?_, ?_⟩
  · simp only [create_post_route, hauth, create_post]
  · intro hinv q hq
    rcases List.mem_append.mp hq with hq | hq
    · exact hinv q hq
    · simp only [List.mem_singleton] at hq
      subst hq
      exact ⟨U, hmem, rfl⟩

theorem create_post_owner_exists_witness :
    alice ∈ sampleDb.users ∧
    create_post_route (some (issueToken 1)) sampleBody sampleDb 0 =
      (.ok ⟨sampleDb.next_post_id, sampleBody.title, sampleBody.content, alice.id⟩,
       { sampleDb with
           posts := sampleDb.posts
             ++ [⟨sampleDb.next_post_id, sampleBody.title, sampleBody.content, alice.id⟩],
           next_post_id := sampleDb.next_post_id + 1 }) :=
  ⟨(create_post_owner_exists (some (issueToken 1)) sampleBody sampleDb 0 alice
      (get_current_user_resolved rfl rfl (by rw [findUserBySub_toString]; decide))).1,
   (create_post_owner_exists (some (issueToken 1)) sampleBody sampleDb 0 alice
      (get_current_user_resolved rfl rfl (by rw [findUserBySub_toString]; decide))).2.1⟩

/-- C6: verifying a password against its own salted hash succeeds, and
hashing the same password under the two distinct salts drawn by two
separate library calls yields two different hash strings, each of which
verifies. -/
theorem hash_verifies_and_salts_differ (p : String) (s₁ s₂ : Nat) :
    pwd_verify p (pwd_hash p s₁) = true ∧
    pwd_verify p (pwd_hash p s₂) = true ∧
    (s₁ ≠ s₂ → pwd_hash p s₁ ≠ pwd_hash p s₂) :=
  ⟨pwd_verify_hash p s₁, pwd_verify_hash p s₂, fun h => pwd_hash_salt_inj p h⟩

theorem hash_verifies_and_salts_differ_witness :
    pwd_verify "p" (pwd_hash "p" 0) = true ∧
    pwd_hash "p" 0 ≠ pwd_hash "p" 1 :=
  ⟨(hash_verifies_and_salts_differ "p" 0 1).1,
   (hash_verifies_and_salts_differ "p" 0 1).2.2 (by decide)⟩

/-- C7: the optional session resolver is total and agrees with the strict
resolver: it returns the absent-user marker on an absent cookie, an
undecodable token, a payload without a subject, or a subject matching no
user row, and returns the user on a valid token for a stored user. -/
theorem optional_resolver_never_fails (c : Option TokenBytes) (db : Store)
    (now : Nat) :
    get_current_user_optional c db now = (get_current_user c db now).toOption ∧
    (c = none → get_current_user_optional c db now = none) ∧
    (∀ t, c = some t → jwt_decode t SECRET_KEY ALGORITHM now = none →
      get_current_user_optional c db now = none) ∧
    (∀ t pl, c = some t → jwt_decode t SECRET_KEY ALGORITHM now = some pl →
      pl.lookup "sub" = none → get_current_user_optional c db now = none) ∧
    (∀ t pl s, c = some t → jwt_decode t SECRET_KEY ALGORITHM now = some pl →
      pl.lookup "sub" = some s → db.findUserBySub s = none →
      get_current_user_optional c db now = none) ∧
    (∀ t pl s u, c = some t → jwt_decode t SECRET_KEY ALGORITHM now = some pl →
      pl.lookup "sub" = some s → db.findUserBySub s = some u →
      get_current_user_optional c db now = some u) := by
  refine ⟨optional_eq_toOption c db now, ?_, ?_, ?_, ?_, ?_⟩
  · rintro rfl
    rfl
  · rintro t rfl hdec
    rw [optional_eq_toOption, get_current_user_decode_fail hdec]
    rfl
  · rintro t pl rfl hdec hsub
    rw [optional_eq_toOption, get_current_user_no_sub hdec hsub]
    rfl
  · rintro t pl s rfl hdec hsub hfind
    rw [optional_eq_toOption, get_current_user_no_user hdec hsub hfind]
    rfl
  · rintro t pl s u rfl hdec hsub hfind
    rw [optional_eq_toOption, get_current_user_resolved hdec hsub hfind]
    rfl

theorem optional_resolver_never_fails_witness :
    get_current_user_optional (some (TokenBytes.malformed "zz")) sampleDb 0 = none ∧
    get_current_user_optional (some (issueToken 2)) sampleDb 0 = some bob :=
  ⟨(optional_resolver_never_fails (some (.malformed "zz")) sampleDb 0).2.2.1
      (.malformed "zz") rfl rfl,
   (optional_resolver_never_fails (some (issueToken 2)) sampleDb 0).2.2.2.2.2
      (issueToken 2) [("sub", toString 2)] (toString 2) bob rfl rfl rfl
      (by rw [findUserBySub_toString]; decide)⟩

/-- C8: an issued token's payload is exactly the one subject claim — in
particular it carries no `exp` claim — so it decodes successfully at
every time, and both resolvers accept it at any two times whenever its
subject user is in the store. -/
theorem issued_token_never_expires (U : User) (db : Store) (now now2 : Nat) :
    issueToken U.id = .signed [("sub", toString U.id)] SECRET_KEY ALGORITHM ∧
    (∀ k v, (k, v) ∈ [(("sub" : String), toString U.id)] → k = "sub") ∧
    jwt_decode (issueToken U.id) SECRET_KEY ALGORITHM now
      = some [("sub", toString U.id)] ∧
    (db.findUserById U.id = some U →
      get_current_user (some (issueToken U.id)) db now = .ok U ∧
      get_current_user_optional (some (issueToken U.id)) db now2 = some U) := by
  refine ⟨rfl, ?_, rfl, ?_⟩
  · intro k v hkv
    simp only [List.mem_singleton, Prod.mk.injEq] at hkv
    exact hkv.1
  · intro h
    have hstrict : ∀ m : Nat, get_current_user (some (issueToken U.id)) db m = .ok U :=
      fun m =>
        @get_current_user_resolved (issueToken U.id) db m [("sub", toString U.id)]
          (toString U.id) U rfl rfl (by rw [findUserBySub_toString]; exact h)
    constructor
    · exact hstrict now
    · rw [optional_eq_toOption, hstrict now2]
      rfl

theorem issued_token_never_expires_witness :
    jwt_decode (issueToken alice.id) SECRET_KEY ALGORITHM 999999
      = some [("sub", toString alice.id)] ∧
    get_current_user (some (issueToken alice.id)) sampleDb 999999 = .ok alice ∧
    get_current_user_optional (some (issueToken alice.id)) sampleDb 123456
      = some alice :=
  ⟨(issued_token_never_expires alice sampleDb 999999 123456).2.2.1,
   ((issued_token_never_expires alice sampleDb 999999 123456).2.2.2 (by decide)).1,
   ((issued_token_never_expires alice sampleDb 999999 123456).2.2.2 (by decide)).2⟩

/-- C9: when the owner updates a post, the store maps `updateFields` over
the Posts table: only the title and content of rows with the given id
change — `updateFields` preserves `id` and `owner_id` and is the identity
on every other post — and the Users table is untouched. -/
theorem owner_update_frame (db : Store) (U : User) (pid : Nat) (body : PostCreate)
    (ex : Post) (hfind : db.findPostById pid = some ex)
    (hown : ex.owner_id = U.id) :
    update_post pid body db U =
      (.ok { ex with title := body.title, content := body.content },
       { db with posts := db.posts.map (updateFields pid body) }) ∧
    (∀ q : Post, (updateFields pid body q).id = q.id ∧
      (updateFields pid body q).owner_id = q.owner_id) ∧
    (∀ q : Post, q.id ≠ pid → updateFields pid body q = q) ∧
    ({ db with posts := db.posts.map (updateFields pid body) } : Store).users
      = db.users := by
  refine ⟨?_, ?_, ?_, rfl⟩
  · simp only [update_post, hfind]
    rw [if_neg (not_not_intro hown)]
  · intro q
    unfold updateFields
    by_cases hq : q.id = pid <;> simp [hq]
  · intro q hq
    unfold updateFields
    simp [hq]

theorem owner_update_frame_witness :
    update_post 1 sampleBody sampleDb alice =
      (.ok { post1 with title := sampleBody.title, content := sampleBody.content },
       { sampleDb with posts := sampleDb.posts.map (updateFields 1 sampleBody) }) ∧
    (updateFields 1 sampleBody post1).owner_id = post1.owner_id ∧
    updateFields 1 sampleBody ⟨7, "x", "y", 2⟩ = ⟨7, "x", "y", 2⟩ :=
  ⟨(owner_update_frame sampleDb alice 1 sampleBody post1 (by decide) (by decide)).1,
   ((owner_update_frame sampleDb alice 1 sampleBody post1 (by decide) (by decide)).2.1
      post1).2,
   (owner_update_frame sampleDb alice 1 sampleBody post1 (by decide) (by decide)).2.2.1
      ⟨7, "x", "y", 2⟩ (by decide)⟩

/-- C10 counterexample: signup does not store its string inputs "exactly
as given" — the password is stored as its salted bcrypt hash, which
differs from the password string itself. -/
theorem signup_stores_hash_not_password :
    (signup ⟨"a@x.com", "p"⟩ 0 emptyStore).2.users
        = [⟨1, "a@x.com", pwd_hash "p" 0⟩] ∧
    pwd_hash "p" 0 ≠ "p" := by
  constructor
  · decide
  · decide

/-- C10 (amended): signup and create post impose no validation on their
string inputs beyond presence — every email/password and title/content
(empty strings included) is accepted given the duplicate/auth
preconditions; email, title and content are stored exactly as given,
while the password is stored as its salted hash rather than verbatim. -/
theorem no_input_validation (email password title content : String) (salt : Nat)
    (db : Store) (U : User) :
    (db.findUserByEmail email = none →
      signup ⟨email, password⟩ salt db =
        (.ok "가입 완료",
         { db with
             users := db.users ++ [⟨db.next_user_id, email, pwd_hash password salt⟩],
             next_user_id := db.next_user_id + 1 })) ∧
    create_post ⟨title, content⟩ db U =
      (.ok ⟨db.next_post_id, title, content, U.id⟩,
       { db with posts := db.posts ++ [⟨db.next_post_id, title, content, U.id⟩],
                 next_post_id := db.next_post_id + 1 }) := by
  constructor
  · intro h
    simp only [signup, h]
  · rfl

theorem no_input_validation_witness :
    signup ⟨"", ""⟩ 0 emptyStore =
      (.ok "가입 완료",
       { emptyStore with
           users := emptyStore.users ++ [⟨emptyStore.next_user_id, "", pwd_hash "" 0⟩],
           next_user_id := emptyStore.next_user_id + 1 }) ∧
    create_post ⟨"", ""⟩ emptyStore alice =
      (.ok ⟨emptyStore.next_post_id, "", "", alice.id⟩,
       { emptyStore with
           posts := emptyStore.posts ++ [⟨emptyStore.next_post_id, "", "", alice.id⟩],
           next_post_id := emptyStore.next_post_id + 1 }) :=
  ⟨(no_input_validation "" "" "" "" 0 emptyStore alice).1 (by decide),
   (no_input_validation "" "" "" "" 0 emptyStore alice).2⟩

end Board
